import Mathlib

/-
Verification of the postgres-sink / dispatch-worker core of the
solana-indexer-plugin repository, shallowly embedded in Lean 4.

Source files embedded:
  src/src/postgres_client/token_account_handler.rs  (TokenAccountHandler)
  src/src/postgres_client/mod.rs                    (SimplePostgresClient)
  src/src/parallel_client_worker.rs                 (ParallelClientWorker)

Machine integers (u64, usize) are modelled as Nat: the program only
inserts, counts and compares them, so no overflow is observable at the
operations embedded here.  Fallible database calls are modelled by an
oracle `db : Stmt → Bool` saying whether a given statement executes
successfully, and every sink operation returns the list of statements it
handed to the connection, in order, so that claims about which statements
are attempted can be stated directly.
-/

/-- Slot status enum from the geyser plugin interface
(`SlotStatus { Processed, Rooted, Confirmed }`). -/
inductive SlotStatus
  | Processed
  | Rooted
  | Confirmed
deriving DecidableEq

/-- Modelled from the spec: the AccountRecord of §3 — `{address: 32-byte key,
owner: 32-byte key, data: byte sequence, slot: u64, lamports, write_version,
executable flag}`.  The defining Rust struct `DbAccountInfo` lives in
src/postgres_client/accounts/account_handler.rs, which is not under src/;
byte payloads are lists of byte values. -/
structure DbAccountInfo where
  pubkey : List Nat
  owner : List Nat
  lamports : Nat
  slot : Nat
  executable : Bool
  data : List Nat
  write_version : Nat
deriving DecidableEq

/-- Byte constant `pubkey!("TokenkegQfeZyiNwAJbNbGKPFXCWuBvf9Ss623VQ5DA")`
(the legacy SPL token program identity), base58-decoded. -/
def TOKEN_PROGRAM_ID : List Nat :=
  [6, 221, 246, 225, 215, 101, 161, 147, 217, 203, 225, 70, 206, 235, 121, 172,
   28, 180, 133, 237, 95, 91, 55, 145, 58, 140, 245, 133, 126, 255, 0, 169]

/-- Byte constant `pubkey!("TokenzQdBNbLqP5VEhdkAS6EPFLC1PHnBqCXEpPxuEb")`
(the extended token program identity), base58-decoded. -/
def TOKENZ_PROGRAM_ID : List Nat :=
  [6, 221, 246, 225, 238, 117, 143, 222, 24, 66, 93, 188, 228, 108, 205, 218,
   182, 26, 252, 77, 131, 185, 13, 39, 254, 189, 249, 40, 216, 161, 139, 252]

/-- Constant `PUBKEY_BYTES` from solana_sdk. -/
def PUBKEY_BYTES : Nat := 32

/-- Rust constant `const SPL_TOKEN_ACCOUNT_MINT_OFFSET: usize = 0`. -/
def SPL_TOKEN_ACCOUNT_MINT_OFFSET : Nat := 0

/-- Rust constant `const SPL_TOKEN_ACCOUNT_OWNER_OFFSET: usize = 32`. -/
def SPL_TOKEN_ACCOUNT_OWNER_OFFSET : Nat := 32

/-- Rust constant `const SPL_TOKEN_ACCOUNT_LENGTH: usize = 165`. -/
def SPL_TOKEN_ACCOUNT_LENGTH : Nat := 165

/-- Rust constant `const SPL_TOKEN_ACCOUNT_DISCRIMINATOR: u8 = 2`. -/
def SPL_TOKEN_ACCOUNT_DISCRIMINATOR : Nat := 2

/-- Embedding of `TokenAccountHandler::account_match` (token_account_handler.rs:54-57):

    account.owner() == TOKEN_PROGRAM_ID.as_ref()
        && account.data.len() == SPL_TOKEN_ACCOUNT_LENGTH
    || account.owner() == TOKENZ_PROGRAM_ID.as_ref()
        && SPL_TOKEN_ACCOUNT_DISCRIMINATOR
           == *account.data.get(SPL_TOKEN_ACCOUNT_LENGTH).unwrap_or(&0)

Rust `&&` binds tighter than `||`; `.get(i).unwrap_or(&0)` is the
bounds-checked read defaulting to 0. -/
def account_match (account : DbAccountInfo) : Bool :=
  (account.owner == TOKEN_PROGRAM_ID && account.data.length == SPL_TOKEN_ACCOUNT_LENGTH)
    || (account.owner == TOKENZ_PROGRAM_ID
        && SPL_TOKEN_ACCOUNT_DISCRIMINATOR == (account.data[SPL_TOKEN_ACCOUNT_LENGTH]?).getD 0)

/-- Rust slice expression `&data[lo..hi]`: defined (as the sub-list) when
`lo ≤ hi ≤ data.len()`, a panic (modelled as `none`) otherwise. -/
def sliceRange (data : List Nat) (lo hi : Nat) : Option (List Nat) :=
  if lo ≤ hi ∧ hi ≤ data.length then some ((data.drop lo).take (hi - lo)) else none

/-- The row contents of the INSERT the token handler executes
(token_account_handler.rs:68-77): pubkey, owner, mint, slot. -/
structure TokenUpsert where
  pubkey : List Nat
  owner : List Nat
  mint : List Nat
  slot : Nat
deriving DecidableEq

/-- Outcome of `TokenAccountHandler::account_update` viewed as a statement
producer: it can return without issuing a statement, issue one upsert, or —
were a slice out of range — panic. -/
inductive DecodeResult
  | panicked
  | noStatement
  | upsert (u : TokenUpsert)
deriving DecidableEq

/-- Embedding of `TokenAccountHandler::account_update` (token_account_handler.rs:59-84),
up to the point where the INSERT statement is handed to the connection: if
`account_match` fails it returns without a statement; otherwise it slices
`data[MINT_OFFSET..MINT_OFFSET+32]` and `data[OWNER_OFFSET..OWNER_OFFSET+32]`
(a panic if out of range, `DecodeResult.panicked` here) and builds the
upsert row `(pubkey, owner, mint, slot)`. -/
def account_update (account : DbAccountInfo) : DecodeResult :=
  if !(account_match account) then .noStatement
  else
    match sliceRange account.data SPL_TOKEN_ACCOUNT_MINT_OFFSET
            (SPL_TOKEN_ACCOUNT_MINT_OFFSET + PUBKEY_BYTES),
          sliceRange account.data SPL_TOKEN_ACCOUNT_OWNER_OFFSET
            (SPL_TOKEN_ACCOUNT_OWNER_OFFSET + PUBKEY_BYTES) with
    | some mint, some owner =>
        .upsert ⟨account.pubkey, owner, mint, account.slot⟩
    | _, _ => .panicked

-- Helper: a successful match guarantees the payload covers both 32-byte reads.

theorem account_match_length (account : DbAccountInfo)
    (h : account_match account = true) : 64 ≤ account.data.length := by
  unfold account_match at h
  simp only [Bool.or_eq_true, Bool.and_eq_true, beq_iff_eq] at h
  rcases h with ⟨-, hlen⟩ | ⟨-, hdisc⟩
  · unfold SPL_TOKEN_ACCOUNT_LENGTH at hlen
    omega
  · rcases hget : account.data[SPL_TOKEN_ACCOUNT_LENGTH]? with - | d
    · rw [hget] at hdisc
      simp [SPL_TOKEN_ACCOUNT_DISCRIMINATOR] at hdisc
    · have hlt : SPL_TOKEN_ACCOUNT_LENGTH < account.data.length :=
        (List.getElem?_eq_some.mp hget).1
      unfold SPL_TOKEN_ACCOUNT_LENGTH at hlt
      omega

/-- C7: for every account record — any owner, any payload length — the
token-account handler matching and encoding never perform an
out-of-range access: the discriminator read is bounds-checked with
default 0, and the mint/owner slices happen only under a successful
`account_match`, which guarantees the payload is at least 64 bytes. -/
theorem token_handler_never_out_of_range (account : DbAccountInfo) :
    account_update account ≠ DecodeResult.panicked := by
  unfold account_update
  rcases h : account_match account with - | -
  · simp
  · have hlen := account_match_length account h
    have hmint : sliceRange account.data SPL_TOKEN_ACCOUNT_MINT_OFFSET
        (SPL_TOKEN_ACCOUNT_MINT_OFFSET + PUBKEY_BYTES)
        = some (account.data.take 32) := by
      unfold sliceRange SPL_TOKEN_ACCOUNT_MINT_OFFSET PUBKEY_BYTES
      rw [if_pos (by omega)]
      simp
    have howner : sliceRange account.data SPL_TOKEN_ACCOUNT_OWNER_OFFSET
        (SPL_TOKEN_ACCOUNT_OWNER_OFFSET + PUBKEY_BYTES)
        = some ((account.data.drop 32).take 32) := by
      unfold sliceRange SPL_TOKEN_ACCOUNT_OWNER_OFFSET PUBKEY_BYTES
      rw [if_pos (by omega)]
    rw [hmint, howner]
    simp

/-- C6: a 165-byte payload owned by the legacy token program identity is
matched, and its update is the upsert whose mint is payload bytes 0..32 and
whose owner is payload bytes 32..64; under the extended program identity a
payload whose discriminator byte at offset 165 is absent or differs from 2
fails the match and produces no statement. -/
theorem token_handler_routing (a b : DbAccountInfo)
    (ha1 : a.owner = TOKEN_PROGRAM_ID)
    (ha2 : a.data.length = SPL_TOKEN_ACCOUNT_LENGTH)
    (hb1 : b.owner = TOKENZ_PROGRAM_ID)
    (hb2 : b.data[SPL_TOKEN_ACCOUNT_LENGTH]? ≠ some SPL_TOKEN_ACCOUNT_DISCRIMINATOR) :
    account_match a = true
      ∧ account_update a
          = DecodeResult.upsert ⟨a.pubkey, (a.data.drop 32).take 32, a.data.take 32, a.slot⟩
      ∧ account_match b = false
      ∧ account_update b = DecodeResult.noStatement := by
  have hmatch_a : account_match a = true := by
    unfold account_match
    simp [ha1, ha2]
  have hmatch_b : account_match b = false := by
    unfold account_match
    have hne : TOKENZ_PROGRAM_ID ≠ TOKEN_PROGRAM_ID := by decide
    have hdisc : SPL_TOKEN_ACCOUNT_DISCRIMINATOR
        ≠ (b.data[SPL_TOKEN_ACCOUNT_LENGTH]?).getD 0 := by
      rcases hget : b.data[SPL_TOKEN_ACCOUNT_LENGTH]? with - | d
      · simp [SPL_TOKEN_ACCOUNT_DISCRIMINATOR]
      · rw [hget] at hb2
        simp only [Option.getD_some]
        intro hcontra
        exact hb2 (by rw [hcontra])
    simp [hb1, hne, hdisc]
  refine ⟨hmatch_a, ?_, hmatch_b, ?_⟩
  · have hlen : 64 ≤ a.data.length := by
      rw [ha2]; unfold SPL_TOKEN_ACCOUNT_LENGTH; omega
    unfold account_update
    rw [hmatch_a]
    have hmint : sliceRange a.data SPL_TOKEN_ACCOUNT_MINT_OFFSET
        (SPL_TOKEN_ACCOUNT_MINT_OFFSET + PUBKEY_BYTES) = some (a.data.take 32) := by
      unfold sliceRange SPL_TOKEN_ACCOUNT_MINT_OFFSET PUBKEY_BYTES
      rw [if_pos (by omega)]
      simp
    have howner : sliceRange a.data SPL_TOKEN_ACCOUNT_OWNER_OFFSET
        (SPL_TOKEN_ACCOUNT_OWNER_OFFSET + PUBKEY_BYTES)
        = some ((a.data.drop 32).take 32) := by
      unfold sliceRange SPL_TOKEN_ACCOUNT_OWNER_OFFSET PUBKEY_BYTES
      rw [if_pos (by omega)]
    rw [hmint, howner]
    simp
  · unfold account_update
    rw [hmatch_b]
    simp

/-- Witness for C6 at concrete accounts: a legacy-owned 165-byte account
and an extended-owned account with no byte at offset 165. -/
theorem token_handler_routing_witness :
    account_match ⟨List.replicate 32 1, TOKEN_PROGRAM_ID, 5, 9, false, List.replicate 165 3, 0⟩ = true
      ∧ account_update ⟨List.replicate 32 1, TOKEN_PROGRAM_ID, 5, 9, false, List.replicate 165 3, 0⟩
          = DecodeResult.upsert ⟨List.replicate 32 1,
              ((List.replicate 165 3 : List Nat).drop 32).take 32,
              (List.replicate 165 3 : List Nat).take 32, 9⟩
      ∧ account_match ⟨List.replicate 32 1, TOKENZ_PROGRAM_ID, 5, 9, false, [], 0⟩ = false
      ∧ account_update ⟨List.replicate 32 1, TOKENZ_PROGRAM_ID, 5, 9, false, [], 0⟩
          = DecodeResult.noStatement :=
  token_handler_routing
    ⟨List.replicate 32 1, TOKEN_PROGRAM_ID, 5, 9, false, List.replicate 165 3, 0⟩
    ⟨List.replicate 32 1, TOKENZ_PROGRAM_ID, 5, 9, false, [], 0⟩
    rfl (by simp [SPL_TOKEN_ACCOUNT_LENGTH]) rfl (by simp)

/-- A stored row of the `spl_token_account` table
(token_account_handler.rs:40-52); the unique index is on
(pubkey, owner, mint). -/
structure TokenRow where
  pubkey : List Nat
  owner : List Nat
  mint : List Nat
  slot : Nat
deriving DecidableEq

/-- The conflict condition of the unique index `spl_token_account_owner_pair`
on (pubkey, owner, mint). -/
def sameKey (r : TokenRow) (u : TokenUpsert) : Bool :=
  r.pubkey == u.pubkey && r.owner == u.owner && r.mint == u.mint

/-- Effect of the clause `DO UPDATE SET slot=excluded.slot WHERE
spl_token_entry.slot < excluded.slot` clause on one conflicting row:
the slot advances only when the stored slot is strictly smaller. -/
def upsertRow (u : TokenUpsert) (r : TokenRow) : TokenRow :=
  if sameKey r u ∧ r.slot < u.slot then { r with slot := u.slot } else r

/-- Relational semantics of the INSERT statement executed at
token_account_handler.rs:68-77 against a table of rows: on a key conflict
the conflicting rows receive the guarded update, otherwise the new row is
inserted. -/
def applyTokenUpsert (table : List TokenRow) (u : TokenUpsert) : List TokenRow :=
  if table.any (fun r => sameKey r u) then table.map (upsertRow u)
  else table ++ [⟨u.pubkey, u.owner, u.mint, u.slot⟩]

theorem sameKey_upsertRow (u : TokenUpsert) (r : TokenRow) :
    sameKey (upsertRow u r) u = sameKey r u := by
  unfold upsertRow
  split <;> simp [sameKey]

theorem upsertRow_idem (u : TokenUpsert) (r : TokenRow) :
    upsertRow u (upsertRow u r) = upsertRow u r := by
  unfold upsertRow
  split
  · rw [if_neg]
    rintro ⟨-, hlt⟩
    simp at hlt
  · rfl

/-- C9: applying the same token-account upsert twice (same pubkey, owner,
mint and slot) leaves the table unchanged after the second application —
the conflict clause of the statement only overwrites a row whose stored slot is
strictly less than the incoming slot, so an equal slot is a no-op. -/
theorem token_upsert_idempotent (table : List TokenRow) (u : TokenUpsert) :
    applyTokenUpsert (applyTokenUpsert table u) u = applyTokenUpsert table u := by
  by_cases h : table.any (fun r => sameKey r u) = true
  · have h1 : applyTokenUpsert table u = table.map (upsertRow u) := by
      unfold applyTokenUpsert
      rw [if_pos h]
    have h2 : (table.map (upsertRow u)).any (fun r => sameKey r u) = true := by
      rw [List.any_map]
      have hcomp : ((fun r => sameKey r u) ∘ upsertRow u) = fun r => sameKey r u := by
        funext r
        exact sameKey_upsertRow u r
      rw [hcomp]
      exact h
    rw [h1]
    unfold applyTokenUpsert
    rw [if_pos h2, List.map_map]
    exact List.map_congr_left fun r _ => upsertRow_idem u r
  · have h1 : applyTokenUpsert table u
        = table ++ [(⟨u.pubkey, u.owner, u.mint, u.slot⟩ : TokenRow)] := by
      unfold applyTokenUpsert
      rw [if_neg h]
    have hrow : sameKey ⟨u.pubkey, u.owner, u.mint, u.slot⟩ u = true := by
      simp [sameKey]
    have h2 : (table ++ [(⟨u.pubkey, u.owner, u.mint, u.slot⟩ : TokenRow)]).any
        (fun r => sameKey r u) = true := by
      simp [List.any_append, hrow]
    have hall : ∀ r ∈ table, ¬ sameKey r u = true := by
      simpa using h
    have hmap : table.map (upsertRow u) = table := by
      conv_rhs => rw [← List.map_id table]
      refine List.map_congr_left fun r hr => ?_
      unfold upsertRow
      rw [if_neg (fun hc => hall r hr hc.1)]
      rfl
    have hone : upsertRow u ⟨u.pubkey, u.owner, u.mint, u.slot⟩
        = ⟨u.pubkey, u.owner, u.mint, u.slot⟩ := by
      unfold upsertRow
      rw [if_neg (fun hc => absurd hc.2 (lt_irrefl u.slot))]
    rw [h1]
    unfold applyTokenUpsert
    rw [if_pos h2, List.map_append, hmap]
    simp [hone]

/-- Error values of `GeyserPluginError` as produced by the embedded code
paths (mod.rs wraps every failed execution as a DataSchemaError; the token
handler uses AccountsUpdateError). -/
inductive PluginError
  | DataSchemaError
  | AccountsUpdateError
deriving DecidableEq

/-- A statement handed to `Client::execute` / `Client::batch_execute`.
The rendering of account upsert text is done by the handler registry in
src/postgres_client/accounts/account_handler.rs, which is not under src/,
so an account-batch statement is abstracted by the list of records it was
built from; slot statements carry the slot, parent and status they encode. -/
inductive Stmt
  | accountsBatch (accounts : List DbAccountInfo)
  | slotUpsert (slot : Nat) (parent : Option Nat) (status : SlotStatus)
  | transactionInsert
  | blockMetadataUpsert
deriving DecidableEq

/-- A database connection oracle: which statements execute successfully.
`batch_execute(q)` / `execute(q)` succeed iff the oracle is true at `q`. -/
def Db : Type := Stmt → Bool

/-- Modelled from the spec: `SlotHandler::update`
(src/postgres_client/slot_handler.rs, not under src/) renders one
slot-status upsert statement with a monotonicity guard (§4.2); here it is
the structured statement carrying its arguments. -/
def SlotHandler_update (slot : Nat) (parent : Option Nat) (status : SlotStatus) : Stmt :=
  Stmt.slotUpsert slot parent status

/-- The state of `SimplePostgresClient` (mod.rs:39-48) restricted to the
fields the embedded operations read or write.  `slots_at_startup` is a
`HashSet<u64>`, modelled as a duplicate-free list. -/
structure SimplePostgresClient where
  batch_size : Nat
  slots_at_startup : List Nat
  pending_account_updates : List DbAccountInfo
deriving DecidableEq

/-- Embedding of `HashSet::insert` on the startup slot set: adds the slot unless present. -/
def hsInsert (s : List Nat) (x : Nat) : List Nat :=
  if x ∈ s then s else x :: s

/-- Embedding of `SimplePostgresClient::update_account` (mod.rs:141-199).  Startup path:
insert the slot into `slots_at_startup`, push the record, and when the
pending length reaches `batch_size` drain the whole buffer into one batched
statement and execute it — the buffer is emptied by `drain(..)` before the
execution, so it is empty whether or not `batch_execute` fails.  Non-startup
path: render the single account through the handlers and execute at once
(the handler registry rendering the text is not under src/; per the spec
the record is encoded and executed immediately, abstracted here as one
statement carrying the record).  Returns (result, new state, statements
attempted). -/
def update_account (c : SimplePostgresClient) (db : Db) (account : DbAccountInfo)
    (is_startup : Bool) : Except PluginError Unit × SimplePostgresClient × List Stmt :=
  if is_startup then
    if c.batch_size ≤ (c.pending_account_updates ++ [account]).length then
      if db (Stmt.accountsBatch (c.pending_account_updates ++ [account])) then
        (Except.ok (), ⟨c.batch_size, hsInsert c.slots_at_startup account.slot, []⟩,
         [Stmt.accountsBatch (c.pending_account_updates ++ [account])])
      else
        (Except.error PluginError.DataSchemaError,
         ⟨c.batch_size, hsInsert c.slots_at_startup account.slot, []⟩,
         [Stmt.accountsBatch (c.pending_account_updates ++ [account])])
    else
      (Except.ok (), ⟨c.batch_size, hsInsert c.slots_at_startup account.slot,
        c.pending_account_updates ++ [account]⟩, [])
  else
    if db (Stmt.accountsBatch [account]) then
      (Except.ok (), c, [Stmt.accountsBatch [account]])
    else
      (Except.error PluginError.DataSchemaError, c, [Stmt.accountsBatch [account]])

/-- Embedding of `SimplePostgresClient::update_slot_status` (mod.rs:201-215): render the
slot statement and execute it immediately. -/
def update_slot_status (c : SimplePostgresClient) (db : Db) (slot : Nat)
    (parent : Option Nat) (status : SlotStatus) :
    Except PluginError Unit × SimplePostgresClient × List Stmt :=
  if db (SlotHandler_update slot parent status) then
    (Except.ok (), c, [SlotHandler_update slot parent status])
  else
    (Except.error PluginError.DataSchemaError, c, [SlotHandler_update slot parent status])

/-- The per-slot loop of `notify_end_of_startup` (mod.rs:245-253): execute
one Rooted upsert per recorded slot, in order, returning at the first
failing statement; slots after a failure are not attempted. -/
def flushSlots (db : Db) : List Nat → Except PluginError Unit × List Stmt
  | [] => (Except.ok (), [])
  | s :: rest =>
    if db (SlotHandler_update s none SlotStatus.Rooted) then
      ((flushSlots db rest).1,
       SlotHandler_update s none SlotStatus.Rooted :: (flushSlots db rest).2)
    else
      (Except.error PluginError.DataSchemaError,
       [SlotHandler_update s none SlotStatus.Rooted])

/-- Embedding of `SimplePostgresClient::notify_end_of_startup` (mod.rs:217-274): drain
the pending account batch into one statement (the drain happens while the
query is built, so the buffer is empty afterwards in every case), execute
it, then run the per-slot Rooted loop.  The loop iterates
`&self.slots_at_startup` without draining it — only the commented-out
variant drains — so `slots_at_startup` is unchanged in the new state. -/
def notify_end_of_startup (c : SimplePostgresClient) (db : Db) :
    Except PluginError Unit × SimplePostgresClient × List Stmt :=
  if db (Stmt.accountsBatch c.pending_account_updates) then
    ((flushSlots db c.slots_at_startup).1,
     ⟨c.batch_size, c.slots_at_startup, []⟩,
     Stmt.accountsBatch c.pending_account_updates :: (flushSlots db c.slots_at_startup).2)
  else
    (Except.error PluginError.DataSchemaError,
     ⟨c.batch_size, c.slots_at_startup, []⟩,
     [Stmt.accountsBatch c.pending_account_updates])

/-- Modelled from the spec: `log_transaction` encodes and executes the
transaction record immediately, never batched (§4.3); the transaction
handler itself (src/postgres_client/transaction_handler.rs) is not under
src/. -/
def log_transaction (c : SimplePostgresClient) (db : Db) :
    Except PluginError Unit × SimplePostgresClient × List Stmt :=
  if db Stmt.transactionInsert then (Except.ok (), c, [Stmt.transactionInsert])
  else (Except.error PluginError.DataSchemaError, c, [Stmt.transactionInsert])

/-- Modelled from the spec: `update_block_metadata` encodes and executes
the block-metadata record immediately, never batched (§4.3); the block
handler itself (src/postgres_client/block_handler.rs) is not under src/. -/
def update_block_metadata (c : SimplePostgresClient) (db : Db) :
    Except PluginError Unit × SimplePostgresClient × List Stmt :=
  if db Stmt.blockMetadataUpsert then (Except.ok (), c, [Stmt.blockMetadataUpsert])
  else (Except.error PluginError.DataSchemaError, c, [Stmt.blockMetadataUpsert])

/-- The sink states at the beginning of each `update_account(·, is_startup
= true)` call of a replay sequence started at `c`, the state after the
whole sequence included. -/
def startupStates (db : Db) (c : SimplePostgresClient) :
    List DbAccountInfo → List SimplePostgresClient
  | [] => [c]
  | a :: rest => c :: startupStates db (update_account c db a true).2.1 rest

theorem update_account_step_bound (c : SimplePostgresClient) (db : Db)
    (account : DbAccountInfo) (is_startup : Bool)
    (hB : 1 ≤ c.batch_size)
    (h : c.pending_account_updates.length < c.batch_size) :
    (update_account c db account is_startup).2.1.batch_size = c.batch_size
      ∧ (update_account c db account is_startup).2.1.pending_account_updates.length
          < c.batch_size := by
  unfold update_account
  cases is_startup with
  | false =>
    rw [if_neg (by simp)]
    split
    · exact ⟨rfl, h⟩
    · exact ⟨rfl, h⟩
  | true =>
    rw [if_pos rfl]
    by_cases hfull : c.batch_size ≤ (c.pending_account_updates ++ [account]).length
    · rw [if_pos hfull]
      split
      · refine ⟨rfl, ?_⟩
        simpa using hB
      · refine ⟨rfl, ?_⟩
        simpa using hB
    · rw [if_neg hfull]
      refine ⟨rfl, ?_⟩
      simp only [List.length_append, List.length_cons, List.length_nil] at hfull ⊢
      omega

/-- C2: for every configured batch size B ≥ 1 and every startup replay
sequence begun with an empty pending buffer, the pending batch holds at
most B records at the moment any operation begins; and a startup
`update_account` whose push brings the buffer length to B drains it (to
empty) within that same call. -/
theorem pending_batch_bounded (db : Db) (c : SimplePostgresClient)
    (accounts : List DbAccountInfo)
    (hB : 1 ≤ c.batch_size)
    (hinit : c.pending_account_updates = []) :
    (∀ s ∈ startupStates db c accounts,
        s.pending_account_updates.length ≤ c.batch_size)
      ∧ (∀ (c1 : SimplePostgresClient) (a : DbAccountInfo),
          c1.batch_size = c.batch_size →
          c.batch_size ≤ c1.pending_account_updates.length + 1 →
          (update_account c1 db a true).2.1.pending_account_updates = []) := by
  constructor
  · have key : ∀ (accs : List DbAccountInfo) (c0 : SimplePostgresClient),
        1 ≤ c0.batch_size →
        c0.pending_account_updates.length < c0.batch_size →
        ∀ s ∈ startupStates db c0 accs,
          s.pending_account_updates.length < c0.batch_size := by
      intro accs
      induction accs with
      | nil =>
        intro c0 h1 h2 s hs
        simp only [startupStates, List.mem_singleton] at hs
        subst hs
        exact h2
      | cons a rest ih =>
        intro c0 h1 h2 s hs
        simp only [startupStates, List.mem_cons] at hs
        rcases hs with hs | hs
        · subst hs
          exact h2
        · have hstep := update_account_step_bound c0 db a true h1 h2
          have h1a : 1 ≤ (update_account c0 db a true).2.1.batch_size := by
            rw [hstep.1]
            exact h1
          have h2a : (update_account c0 db a true).2.1.pending_account_updates.length
              < (update_account c0 db a true).2.1.batch_size := by
            rw [hstep.1]
            exact hstep.2
          have hrec := ih (update_account c0 db a true).2.1 h1a h2a s hs
          rw [hstep.1] at hrec
          exact hrec
    intro s hs
    have h2 : c.pending_account_updates.length < c.batch_size := by
      rw [hinit]
      simpa using hB
    exact le_of_lt (key accounts c hB h2 s hs)
  · intro c1 a hbs hlen
    unfold update_account
    rw [if_pos rfl, if_pos (by
      simp only [List.length_append, List.length_cons, List.length_nil]
      omega)]
    split
    · rfl
    · rfl

/-- C3: a startup update that fills the batch to the configured size drains
the whole buffer into one batched statement; when that statement fails,
`update_account` returns the error and the pending buffer is empty
afterwards — the failed batch is dropped, not kept for retry. -/
theorem failed_flush_drops_batch (c : SimplePostgresClient) (db : Db)
    (account : DbAccountInfo)
    (hfull : c.batch_size ≤ (c.pending_account_updates ++ [account]).length)
    (hfail : db (Stmt.accountsBatch (c.pending_account_updates ++ [account])) = false) :
    update_account c db account true
      = (Except.error PluginError.DataSchemaError,
         ⟨c.batch_size, hsInsert c.slots_at_startup account.slot, []⟩,
         [Stmt.accountsBatch (c.pending_account_updates ++ [account])]) := by
  unfold update_account
  rw [if_pos rfl, if_pos hfull, if_neg (by simp [hfail])]

/-- Witness for C3: batch size 1, a database that fails every statement;
the single startup update triggers the flush, the error surfaces, and the
buffer is empty in the returned state. -/
theorem failed_flush_drops_batch_witness :
    update_account ⟨1, [], []⟩ (fun _ => false) ⟨[], [], 0, 7, false, [], 0⟩ true
      = (Except.error PluginError.DataSchemaError,
         ⟨1, hsInsert [] 7, []⟩,
         [Stmt.accountsBatch [⟨[], [], 0, 7, false, [], 0⟩]]) :=
  failed_flush_drops_batch ⟨1, [], []⟩ (fun _ => false) ⟨[], [], 0, 7, false, [], 0⟩
    (by decide) rfl

/-- Witness for C2 at batch size 2 with three startup updates and a
database accepting everything: the state at every boundary (here the final
one) holds at most 2 pending records, and a second update from a state
holding one pending record drains the buffer. -/
theorem pending_batch_bounded_witness :
    ((startupStates (fun _ => true) ⟨2, [], []⟩
        [⟨[], [], 0, 11, false, [], 0⟩, ⟨[], [], 0, 12, false, [], 0⟩,
         ⟨[], [], 0, 13, false, [], 0⟩]).get
      ⟨3, by decide⟩).pending_account_updates.length ≤ 2
      ∧ (update_account ⟨2, [], [⟨[], [], 0, 11, false, [], 0⟩]⟩ (fun _ => true)
          ⟨[], [], 0, 12, false, [], 0⟩ true).2.1.pending_account_updates = [] := by
  have h := pending_batch_bounded (fun _ => true) ⟨2, [], []⟩
      [⟨[], [], 0, 11, false, [], 0⟩, ⟨[], [], 0, 12, false, [], 0⟩,
       ⟨[], [], 0, 13, false, [], 0⟩] (by decide) rfl
  exact ⟨h.1 _ (List.get_mem _ _ _), h.2 _ _ rfl (by decide)⟩

theorem flushSlots_all_ok (db : Db) (hdb : ∀ stmt, db stmt = true)
    (slots : List Nat) :
    flushSlots db slots
      = (Except.ok (), slots.map (fun s => Stmt.slotUpsert s none SlotStatus.Rooted)) := by
  induction slots with
  | nil => rfl
  | cons s rest ih =>
    unfold flushSlots
    rw [ih]
    simp [SlotHandler_update, hdb]

theorem countP_slotUpsert_map (s : Nat) (slots : List Nat) :
    (slots.map (fun x => Stmt.slotUpsert x none SlotStatus.Rooted)).countP
        (fun st => decide (st = Stmt.slotUpsert s none SlotStatus.Rooted))
      = slots.countP (fun x => decide (x = s)) := by
  induction slots with
  | nil => rfl
  | cons a rest ih =>
    simp only [List.map_cons, List.countP_cons, ih]
    congr 1
    by_cases h : a = s
    · subst h
      simp
    · simp [h]

theorem countP_nodup (s : Nat) : ∀ (l : List Nat), l.Nodup →
    l.countP (fun x => decide (x = s)) = if s ∈ l then 1 else 0 := by
  intro l
  induction l with
  | nil =>
    intro h0
    simp
  | cons a rest ih =>
    intro h
    rw [List.nodup_cons] at h
    rw [List.countP_cons, ih h.2]
    by_cases has : s = a
    · subst has
      simp [h.1]
    · have han : a ≠ s := fun hc => has hc.symm
      simp [List.mem_cons, has, han]

/-- C1 amended: after a replay that recorded the duplicate-free slot set S,
`notify_end_of_startup` against a database accepting every statement
returns Ok and issues exactly one terminal Rooted upsert per distinct slot
of S (and none for any other slot); but `slots_at_startup` is left
unchanged afterward, not emptied — the loop at mod.rs:247 iterates the set
without draining it. -/
theorem notify_end_of_startup_roots_each_slot_once (c : SimplePostgresClient) (db : Db)
    (hnd : c.slots_at_startup.Nodup)
    (hdb : ∀ stmt, db stmt = true) :
    (notify_end_of_startup c db).1 = Except.ok ()
      ∧ (∀ s, ((notify_end_of_startup c db).2.2.countP
            (fun st => decide (st = Stmt.slotUpsert s none SlotStatus.Rooted)))
          = if s ∈ c.slots_at_startup then 1 else 0)
      ∧ (notify_end_of_startup c db).2.1.slots_at_startup = c.slots_at_startup := by
  have heq : notify_end_of_startup c db
      = (Except.ok (), ⟨c.batch_size, c.slots_at_startup, []⟩,
         Stmt.accountsBatch c.pending_account_updates
           :: c.slots_at_startup.map (fun s => Stmt.slotUpsert s none SlotStatus.Rooted)) := by
    unfold notify_end_of_startup
    rw [if_pos (hdb _), flushSlots_all_ok db hdb]
  rw [heq]
  refine ⟨rfl, ?_, rfl⟩
  intro s
  rw [List.countP_cons, countP_slotUpsert_map, countP_nodup s _ hnd]
  simp

/-- Witness for C1 (amended) with slots {4, 9} and an all-accepting
database: slot 4 receives exactly one Rooted upsert, slot 7 none, and the
slot set is unchanged. -/
theorem notify_roots_each_slot_once_witness :
    (notify_end_of_startup ⟨2, [4, 9], []⟩ (fun _ => true)).1 = Except.ok ()
      ∧ ((notify_end_of_startup ⟨2, [4, 9], []⟩ (fun _ => true)).2.2.countP
          (fun st => decide (st = Stmt.slotUpsert 4 none SlotStatus.Rooted))) = 1
      ∧ ((notify_end_of_startup ⟨2, [4, 9], []⟩ (fun _ => true)).2.2.countP
          (fun st => decide (st = Stmt.slotUpsert 7 none SlotStatus.Rooted))) = 0
      ∧ (notify_end_of_startup ⟨2, [4, 9], []⟩ (fun _ => true)).2.1.slots_at_startup
          = [4, 9] := by
  have h := notify_end_of_startup_roots_each_slot_once ⟨2, [4, 9], []⟩ (fun _ => true)
      (by decide) (fun _ => rfl)
  refine ⟨h.1, ?_, ?_, h.2.2⟩
  · rw [h.2.1 4]
    decide
  · rw [h.2.1 7]
    decide

/-- C1 counterexample: with slot 5 recorded during replay and a database
accepting every statement, `notify_end_of_startup` succeeds yet
`slots_at_startup` still holds 5 afterward — the clause
"SlotsSeenAtStartup is empty afterward" is false on the code, which
iterates the set at mod.rs:247 without draining it (only the commented-out
variant drains). -/
theorem notify_leaves_slots_counterexample :
    (notify_end_of_startup ⟨1, [5], []⟩ (fun _ => true)).1 = Except.ok ()
      ∧ (notify_end_of_startup ⟨1, [5], []⟩ (fun _ => true)).2.1.slots_at_startup
          = [5] :=
  ⟨rfl, rfl⟩

theorem flushSlots_prefix_fail (db : Db) (s : Nat) (rest : List Nat)
    (hfail : db (SlotHandler_update s none SlotStatus.Rooted) = false) :
    ∀ pre : List Nat,
      (∀ x ∈ pre, db (SlotHandler_update x none SlotStatus.Rooted) = true) →
      flushSlots db (pre ++ s :: rest)
        = (Except.error PluginError.DataSchemaError,
           pre.map (fun x => SlotHandler_update x none SlotStatus.Rooted)
             ++ [SlotHandler_update s none SlotStatus.Rooted]) := by
  intro pre
  induction pre with
  | nil =>
    intro hpre
    simp only [List.nil_append, List.map_nil]
    unfold flushSlots
    rw [if_neg (by simp [hfail])]
  | cons a pre ih =>
    intro hpre
    have ha : db (SlotHandler_update a none SlotStatus.Rooted) = true :=
      hpre a (by simp)
    have hprev : ∀ x ∈ pre, db (SlotHandler_update x none SlotStatus.Rooted) = true :=
      fun x hx => hpre x (by simp [hx])
    simp only [List.cons_append]
    unfold flushSlots
    rw [if_pos ha, ih hprev]
    simp

/-- C4 amended: during `notify_end_of_startup` a failing per-slot Rooted
upsert — at any position of the iteration, after any prefix of succeeding
slot upserts — is not logged-and-skipped: the call returns that error
immediately and the remaining recorded slots are not attempted in that
call.  The account flush is attempted first, before any slot statement. -/
theorem notify_slot_failure_aborts (c : SimplePostgresClient) (db : Db)
    (pre : List Nat) (s : Nat) (rest : List Nat)
    (hslots : c.slots_at_startup = pre ++ s :: rest)
    (hacc : db (Stmt.accountsBatch c.pending_account_updates) = true)
    (hpre : ∀ x ∈ pre, db (Stmt.slotUpsert x none SlotStatus.Rooted) = true)
    (hfail : db (Stmt.slotUpsert s none SlotStatus.Rooted) = false) :
    notify_end_of_startup c db
      = (Except.error PluginError.DataSchemaError,
         ⟨c.batch_size, c.slots_at_startup, []⟩,
         Stmt.accountsBatch c.pending_account_updates
           :: (pre.map (fun x => Stmt.slotUpsert x none SlotStatus.Rooted)
               ++ [Stmt.slotUpsert s none SlotStatus.Rooted])) := by
  have hflush := flushSlots_prefix_fail db s rest hfail pre hpre
  unfold notify_end_of_startup
  rw [if_pos hacc, hslots, hflush]
  simp [SlotHandler_update]

/-- Witness for C4 (amended) at a mid-loop failure: slots {1, 2, 3}, a
database refusing exactly the Rooted upsert of slot 2 — the upsert for
slot 1 succeeds, the call errors on slot 2, and slot 3 is never
attempted. -/
theorem notify_slot_failure_aborts_witness :
    notify_end_of_startup ⟨1, [1, 2, 3], []⟩
        (fun st => if st = Stmt.slotUpsert 2 none SlotStatus.Rooted then false else true)
      = (Except.error PluginError.DataSchemaError,
         ⟨1, [1, 2, 3], []⟩,
         [Stmt.accountsBatch [], Stmt.slotUpsert 1 none SlotStatus.Rooted,
          Stmt.slotUpsert 2 none SlotStatus.Rooted]) :=
  notify_slot_failure_aborts ⟨1, [1, 2, 3], []⟩
    (fun st => if st = Stmt.slotUpsert 2 none SlotStatus.Rooted then false else true)
    [1] 2 [3] rfl (by decide) (by decide) (by decide)

/-- C4 counterexample: same scenario — the claim says the flush continues
with the remaining slots after an individual failure, but the call returns
the error and the Rooted upsert for slot 2 is never attempted. -/
theorem notify_slot_failure_no_continue_counterexample :
    (notify_end_of_startup ⟨1, [1, 2], []⟩
        (fun st => if st = Stmt.slotUpsert 1 none SlotStatus.Rooted then false else true)).1
      = Except.error PluginError.DataSchemaError
      ∧ Stmt.slotUpsert 2 none SlotStatus.Rooted
          ∉ (notify_end_of_startup ⟨1, [1, 2], []⟩
              (fun st => if st = Stmt.slotUpsert 1 none SlotStatus.Rooted
                then false else true)).2.2 :=
  ⟨rfl, by decide⟩

/-- Embedding of `WorkRequest` (parallel_client_worker.rs:41-46); the boxed payload
structs are inlined as constructor arguments.  Transaction and block
payloads are opaque to the embedded logic. -/
inductive WorkRequest
  | UpdateAccount (account : DbAccountInfo) (is_startup : Bool)
  | UpdateSlot (slot : Nat) (parent : Option Nat) (slot_status : SlotStatus)
  | LogTransaction
  | UpdateBlockMetadata
deriving DecidableEq

/-- What one `receiver.recv_timeout(500ms)` yields
(parallel_client_worker.rs:76,79,114-135): a request, a timeout — paired
with the value the worker would read from the process-wide
`is_startup_done` atomic in that iteration — or a non-timeout receive
error (producer disconnected). -/
inductive RecvResult
  | work (w : WorkRequest)
  | timeout (startup_flag : Bool)
  | disconnected
deriving DecidableEq

/-- Worker-local state (parallel_client_worker.rs:48-52): the sink and the
local `is_startup_done` acknowledgement flag of the worker. -/
structure WorkerState where
  client : SimplePostgresClient
  is_startup_done : Bool
deriving DecidableEq

/-- Outcome of one loop iteration: keep looping, break out of the loop
(non-timeout receive error without fail-fast), or `abort()` the process.
`incr` counts the `startup_done_count.fetch_add(1)` calls of this iteration and
`notif` its `notify_end_of_startup` calls; an abort inside the notify
error branch happens before the flag set and the fetch_add, so an aborted
outcome records the notify call count alone. -/
inductive StepOutcome
  | next (st : WorkerState) (incr : Nat) (notif : Nat)
  | halted (st : WorkerState)
  | aborted (st : WorkerState) (notif : Nat)
deriving DecidableEq

/-- The sink call each request kind dispatches to
(parallel_client_worker.rs:81-112). -/
def requestCall (db : Db) (c : SimplePostgresClient) :
    WorkRequest → Except PluginError Unit × SimplePostgresClient × List Stmt
  | .UpdateAccount account is_startup => update_account c db account is_startup
  | .UpdateSlot slot parent status => update_slot_status c db slot parent status
  | .LogTransaction => log_transaction c db
  | .UpdateBlockMetadata => update_block_metadata c db

/-- One iteration of `ParallelClientWorker::do_work`
(parallel_client_worker.rs:79-137) once the receive result is in hand.  On
a request, dispatch to the sink; a sink error is logged, and aborts the
process when `panic_on_db_errors` is set.  On timeout, when the
process-wide flag is set and this worker has not acknowledged it: call
`notify_end_of_startup` (an error aborts under `panic_on_db_errors`,
otherwise it is only logged), then unconditionally set the local flag and
increment the shared counter.  On another receive error, apply the failure
policy and break. -/
def workerStep (db : Db) (panic_on_db_errors : Bool) (st : WorkerState) :
    RecvResult → StepOutcome
  | .work w =>
    match requestCall db st.client w with
    | (Except.ok _, c1, _) => .next ⟨c1, st.is_startup_done⟩ 0 0
    | (Except.error _, c1, _) =>
      if panic_on_db_errors then .aborted ⟨c1, st.is_startup_done⟩ 0
      else .next ⟨c1, st.is_startup_done⟩ 0 0
  | .timeout startup_flag =>
    if !st.is_startup_done && startup_flag then
      match notify_end_of_startup st.client db with
      | (Except.ok _, c1, _) => .next ⟨c1, true⟩ 1 1
      | (Except.error _, c1, _) =>
        if panic_on_db_errors then .aborted ⟨c1, st.is_startup_done⟩ 1
        else .next ⟨c1, true⟩ 1 1
    else .next st 0 0
  | .disconnected =>
    if panic_on_db_errors then .aborted st 0 else .halted st

/-- Result of the `do_work` loop over a finite schedule: final worker
state, total shared-counter increments, total `notify_end_of_startup`
calls, and whether `abort()` terminated the process. -/
structure RunResult where
  final : WorkerState
  increments : Nat
  notifies : Nat
  aborted : Bool
deriving DecidableEq

/-- Embedding of `ParallelClientWorker::do_work` (parallel_client_worker.rs:66-140)
over a finite schedule of iterations, each supplying the observed
`exit_worker` flag and the receive result: stop when the exit flag is
set, otherwise take one `workerStep`. -/
def do_work (db : Db) (panic_on_db_errors : Bool) :
    WorkerState → List (Bool × RecvResult) → RunResult
  | st, [] => ⟨st, 0, 0, false⟩
  | st, (exit_flag, r) :: rest =>
    if exit_flag then ⟨st, 0, 0, false⟩
    else
      match workerStep db panic_on_db_errors st r with
      | .next st1 i n =>
        ⟨(do_work db panic_on_db_errors st1 rest).final,
         i + (do_work db panic_on_db_errors st1 rest).increments,
         n + (do_work db panic_on_db_errors st1 rest).notifies,
         (do_work db panic_on_db_errors st1 rest).aborted⟩
      | .halted st1 => ⟨st1, 0, 0, false⟩
      | .aborted st1 n => ⟨st1, 0, n, true⟩

/-- Shared-counter increments (`fetch_add` calls) recorded by one outcome. -/
def StepOutcome.incrCount : StepOutcome → Nat
  | .next _ i _ => i
  | .halted _ => 0
  | .aborted _ _ => 0

/-- Count of `notify_end_of_startup` calls recorded by one outcome. -/
def StepOutcome.notifCount : StepOutcome → Nat
  | .next _ _ n => n
  | .halted _ => 0
  | .aborted _ n => n

/-- The worker-local acknowledgement flag in the state of the outcome. -/
def StepOutcome.doneFlag : StepOutcome → Bool
  | .next st _ _ => st.is_startup_done
  | .halted st => st.is_startup_done
  | .aborted st _ => st.is_startup_done

theorem workerStep_after_done (db : Db) (pf : Bool) (st : WorkerState) (r : RecvResult)
    (h : st.is_startup_done = true) :
    (workerStep db pf st r).incrCount = 0
      ∧ (workerStep db pf st r).notifCount = 0
      ∧ (workerStep db pf st r).doneFlag = true := by
  rcases r with w | flag | -
  · rcases hq : requestCall db st.client w with ⟨res, c1, stmts⟩
    rcases res with e | u
    · have hstep : workerStep db pf st (.work w)
          = if pf then StepOutcome.aborted ⟨c1, st.is_startup_done⟩ 0
            else StepOutcome.next ⟨c1, st.is_startup_done⟩ 0 0 := by
        simp only [workerStep]
        rw [hq]
      rw [hstep]
      by_cases hp : pf = true
      · simp [hp, StepOutcome.incrCount, StepOutcome.notifCount, StepOutcome.doneFlag, h]
      · simp [hp, StepOutcome.incrCount, StepOutcome.notifCount, StepOutcome.doneFlag, h]
    · have hstep : workerStep db pf st (.work w)
          = StepOutcome.next ⟨c1, st.is_startup_done⟩ 0 0 := by
        simp only [workerStep]
        rw [hq]
      rw [hstep]
      simp [StepOutcome.incrCount, StepOutcome.notifCount, StepOutcome.doneFlag, h]
  · have hstep : workerStep db pf st (.timeout flag) = StepOutcome.next st 0 0 := by
      simp only [workerStep]
      rw [h]
      simp
    rw [hstep]
    simp [StepOutcome.incrCount, StepOutcome.notifCount, StepOutcome.doneFlag, h]
  · simp only [workerStep]
    by_cases hp : pf = true
    · simp [hp, StepOutcome.incrCount, StepOutcome.notifCount, StepOutcome.doneFlag, h]
    · simp [hp, StepOutcome.incrCount, StepOutcome.notifCount, StepOutcome.doneFlag, h]

theorem workerStep_not_done_next (db : Db) (pf : Bool) (st : WorkerState) (r : RecvResult)
    (h : st.is_startup_done = false) (st1 : WorkerState) (i n : Nat)
    (hstep : workerStep db pf st r = .next st1 i n) :
    (i = 0 ∧ n = 0 ∧ st1.is_startup_done = false)
      ∨ (i = 1 ∧ n = 1 ∧ st1.is_startup_done = true) := by
  rcases r with w | flag | -
  · rcases hq : requestCall db st.client w with ⟨res, c1, stmts⟩
    simp only [workerStep] at hstep
    rw [hq] at hstep
    rcases res with e | u
    · by_cases hp : pf = true
      · rw [hp] at hstep
        simp at hstep
      · simp only [hp] at hstep
        simp at hstep
        left
        exact ⟨hstep.2.1.symm, hstep.2.2.symm, by rw [← hstep.1, h]⟩
    · simp at hstep
      left
      exact ⟨hstep.2.1.symm, hstep.2.2.symm, by rw [← hstep.1, h]⟩
  · simp only [workerStep] at hstep
    rw [h] at hstep
    by_cases hflag : flag = true
    · rw [hflag] at hstep
      simp only [Bool.not_false, Bool.and_self, if_pos] at hstep
      rcases hq : notify_end_of_startup st.client db with ⟨res, c1, stmts⟩
      rw [hq] at hstep
      rcases res with e | u
      · by_cases hp : pf = true
        · rw [hp] at hstep
          simp at hstep
        · simp only [hp] at hstep
          simp at hstep
          right
          exact ⟨hstep.2.1.symm, hstep.2.2.symm, by rw [← hstep.1]⟩
      · simp at hstep
        right
        exact ⟨hstep.2.1.symm, hstep.2.2.symm, by rw [← hstep.1]⟩
    · have hflag2 : flag = false := by
        revert hflag
        cases flag <;> simp
      rw [hflag2] at hstep
      simp at hstep
      left
      exact ⟨hstep.2.1.symm, hstep.2.2.symm, by rw [← hstep.1, h]⟩
  · simp only [workerStep] at hstep
    by_cases hp : pf = true
    · rw [hp] at hstep
      simp at hstep
    · simp only [hp] at hstep
      simp at hstep

theorem workerStep_abort_notif (db : Db) (pf : Bool) (st : WorkerState) (r : RecvResult)
    (st1 : WorkerState) (n : Nat)
    (hstep : workerStep db pf st r = .aborted st1 n) : n ≤ 1 := by
  rcases r with w | flag | -
  · rcases hq : requestCall db st.client w with ⟨res, c1, stmts⟩
    simp only [workerStep] at hstep
    rw [hq] at hstep
    rcases res with e | u
    · by_cases hp : pf = true
      · rw [hp] at hstep
        simp at hstep
        omega
      · simp only [hp] at hstep
        simp at hstep
    · simp at hstep
  · simp only [workerStep] at hstep
    by_cases hcond : (!st.is_startup_done && flag) = true
    · rw [if_pos hcond] at hstep
      rcases hq : notify_end_of_startup st.client db with ⟨res, c1, stmts⟩
      rw [hq] at hstep
      rcases res with e | u
      · by_cases hp : pf = true
        · rw [hp] at hstep
          simp at hstep
          omega
        · simp only [hp] at hstep
          simp at hstep
      · simp at hstep
    · rw [if_neg hcond] at hstep
      simp at hstep
  · simp only [workerStep] at hstep
    by_cases hp : pf = true
    · rw [hp] at hstep
      simp at hstep
      omega
    · simp only [hp] at hstep
      simp at hstep

theorem do_work_after_done (db : Db) (pf : Bool) :
    ∀ (evs : List (Bool × RecvResult)) (st : WorkerState),
      st.is_startup_done = true →
      (do_work db pf st evs).increments = 0 ∧ (do_work db pf st evs).notifies = 0 := by
  intro evs
  induction evs with
  | nil =>
    intro st h
    exact ⟨rfl, rfl⟩
  | cons e rest ih =>
    intro st h
    rcases e with ⟨ef, r⟩
    simp only [do_work]
    by_cases hef : ef = true
    · rw [if_pos hef]
      exact ⟨rfl, rfl⟩
    · rw [if_neg hef]
      have hs := workerStep_after_done db pf st r h
      rcases hstep : workerStep db pf st r with ⟨st1, i, n⟩ | st1 | ⟨st1, n⟩
      · rw [hstep] at hs
        simp only [StepOutcome.incrCount, StepOutcome.notifCount, StepOutcome.doneFlag] at hs
        obtain ⟨hi, hn, hdone⟩ := hs
        have hrec := ih st1 hdone
        simp [hi, hn, hrec.1, hrec.2]
      · simp
      · rw [hstep] at hs
        simp only [StepOutcome.incrCount, StepOutcome.notifCount, StepOutcome.doneFlag] at hs
        simp [hs.2.1]

theorem do_work_bound (db : Db) (pf : Bool) :
    ∀ (evs : List (Bool × RecvResult)) (st : WorkerState),
      (do_work db pf st evs).increments ≤ 1 ∧ (do_work db pf st evs).notifies ≤ 1 := by
  intro evs
  induction evs with
  | nil =>
    intro st
    exact ⟨Nat.zero_le 1, Nat.zero_le 1⟩
  | cons e rest ih =>
    intro st
    rcases e with ⟨ef, r⟩
    simp only [do_work]
    by_cases hef : ef = true
    · rw [if_pos hef]
      exact ⟨Nat.zero_le 1, Nat.zero_le 1⟩
    · rw [if_neg hef]
      rcases hstep : workerStep db pf st r with ⟨st1, i, n⟩ | st1 | ⟨st1, n⟩
      · by_cases hdone : st.is_startup_done = true
        · have hs := workerStep_after_done db pf st r hdone
          rw [hstep] at hs
          simp only [StepOutcome.incrCount, StepOutcome.notifCount,
            StepOutcome.doneFlag] at hs
          obtain ⟨hi, hn, h1⟩ := hs
          simp only [hi, hn]
          constructor
          · simpa using (ih st1).1
          · simpa using (ih st1).2
        · have hflag : st.is_startup_done = false := by
            revert hdone
            cases st.is_startup_done <;> simp
          rcases workerStep_not_done_next db pf st r hflag st1 i n hstep
            with ⟨hi, hn, h1⟩ | ⟨hi, hn, h1⟩
          · simp only [hi, hn]
            constructor
            · simpa using (ih st1).1
            · simpa using (ih st1).2
          · have hz := do_work_after_done db pf rest st1 h1
            simp [hi, hn, hz.1, hz.2]
      · simp
      · have hab := workerStep_abort_notif db pf st r st1 n hstep
        constructor
        · simp
        · simpa using hab

/-- C5: over every finite schedule of loop iterations — any number of
receive timeouts after the process-wide startup-finished flag is set, any
requests, any database behavior and either failure policy — one worker
calls `notify_end_of_startup` at most once and increments the shared
startup-completion counter at most once. -/
theorem worker_signals_startup_once (db : Db) (pf : Bool)
    (evs : List (Bool × RecvResult)) (st : WorkerState) :
    (do_work db pf st evs).notifies ≤ 1
      ∧ (do_work db pf st evs).increments ≤ 1 :=
  ⟨(do_work_bound db pf evs st).2, (do_work_bound db pf evs st).1⟩

/-- C8: for a received work request whose sink call fails: with the
fail-on-database-errors flag the worker aborts the whole process in that
iteration; without it the error is only logged, the iteration continues,
and the loop over the remaining schedule is exactly the run from the
updated state — subsequent requests are processed normally. -/
theorem worker_failure_policy (db : Db) (st : WorkerState) (w : WorkRequest)
    (rest : List (Bool × RecvResult)) (e : PluginError)
    (herr : (requestCall db st.client w).1 = Except.error e) :
    workerStep db true st (.work w)
        = StepOutcome.aborted ⟨(requestCall db st.client w).2.1, st.is_startup_done⟩ 0
      ∧ workerStep db false st (.work w)
        = StepOutcome.next ⟨(requestCall db st.client w).2.1, st.is_startup_done⟩ 0 0
      ∧ do_work db false st ((false, RecvResult.work w) :: rest)
        = do_work db false ⟨(requestCall db st.client w).2.1, st.is_startup_done⟩ rest := by
  rcases hq : requestCall db st.client w with ⟨res, c1, stmts⟩
  have hres : res = Except.error e := by
    rw [hq] at herr
    exact herr
  subst hres
  have h2 : workerStep db false st (.work w)
      = StepOutcome.next ⟨c1, st.is_startup_done⟩ 0 0 := by
    simp only [workerStep]
    rw [hq]
    rfl
  refine ⟨?_, h2, ?_⟩
  · simp only [workerStep]
    rw [hq]
    rfl
  · simp only [do_work, h2]
    simp

/-- Witness for C8: a database refusing every statement and a slot-status
request — fail-fast aborts the process in that iteration, best-effort
continues and processes the rest of the schedule from the same sink
state. -/
theorem worker_failure_policy_witness :
    workerStep (fun _ => false) true ⟨⟨1, [], []⟩, false⟩
        (.work (.UpdateSlot 3 none SlotStatus.Processed))
        = StepOutcome.aborted ⟨⟨1, [], []⟩, false⟩ 0
      ∧ workerStep (fun _ => false) false ⟨⟨1, [], []⟩, false⟩
        (.work (.UpdateSlot 3 none SlotStatus.Processed))
        = StepOutcome.next ⟨⟨1, [], []⟩, false⟩ 0 0
      ∧ do_work (fun _ => false) false ⟨⟨1, [], []⟩, false⟩
          [(false, RecvResult.work (.UpdateSlot 3 none SlotStatus.Processed))]
        = do_work (fun _ => false) false ⟨⟨1, [], []⟩, false⟩ [] :=
  worker_failure_policy (fun _ => false) ⟨⟨1, [], []⟩, false⟩
    (.UpdateSlot 3 none SlotStatus.Processed) [] PluginError.DataSchemaError rfl

/-- C10: on a timeout with the process-wide startup flag set, when
`notify_end_of_startup` fails and fail-on-database-errors is off, the
worker still sets its local acknowledged flag and still increments the
shared counter in that same iteration — and from the acknowledged state no
later schedule ever calls `notify_end_of_startup` again. -/
theorem failed_notify_still_acknowledged (db : Db) (st : WorkerState) (e : PluginError)
    (rest : List (Bool × RecvResult))
    (hnd : st.is_startup_done = false)
    (herr : (notify_end_of_startup st.client db).1 = Except.error e) :
    workerStep db false st (.timeout true)
        = StepOutcome.next ⟨(notify_end_of_startup st.client db).2.1, true⟩ 1 1
      ∧ (do_work db false ⟨(notify_end_of_startup st.client db).2.1, true⟩ rest).notifies
          = 0 := by
  rcases hq : notify_end_of_startup st.client db with ⟨res, c1, stmts⟩
  have hres : res = Except.error e := by
    rw [hq] at herr
    exact herr
  subst hres
  constructor
  · simp only [workerStep]
    rw [hnd, hq]
    simp
  · exact (do_work_after_done db false rest ⟨c1, true⟩ rfl).2

/-- Witness for C10: sink with empty buffers, a database refusing every
statement: the notify call errors, yet the step returns the acknowledged
state with one counter increment, and a further timeout iteration does not
call notify again. -/
theorem failed_notify_still_acknowledged_witness :
    workerStep (fun _ => false) false ⟨⟨1, [], []⟩, false⟩ (.timeout true)
        = StepOutcome.next ⟨⟨1, [], []⟩, true⟩ 1 1
      ∧ (do_work (fun _ => false) false ⟨⟨1, [], []⟩, true⟩
          [(false, RecvResult.timeout true)]).notifies = 0 :=
  failed_notify_still_acknowledged (fun _ => false) ⟨⟨1, [], []⟩, false⟩
    PluginError.DataSchemaError [(false, RecvResult.timeout true)] rfl rfl
